import Mathlib

/-!
# Places application (`src/app.js`): shallow embedding of the route handlers

The five Express route handlers of `src/app.js` are embedded as pure functions
`Env → Request → World → Response × World`.

* `World` is the state the handlers act on: the backing file of the LowDB store
  (`disk`, the persisted collection), the in-memory document `db.data.places`
  (`mem`), the objects currently live at the hosted media service (`remote`),
  and the trace of store and media-service calls made so far (`calls`).
* `Env` fixes, for one request, how each awaited external call ends (resolves
  or rejects with an error) and what `crypto.randomUUID()` and
  `new Date().toISOString()` return.
* A `try { ... } catch (error) { ... }` block is embedded by explicit case
  analysis: each awaited call yields `Except Err α × World`, and the `error`
  branch is the handler's `catch` clause.
-/

namespace Places

/-! ## Data model -/

/-- The content of a thrown JavaScript error / promise rejection. -/
abbrev Err := String

/-- A place record as stored under the key `places` of `db.json`.
Every property except `id` may be absent (`undefined`, dropped by JSON) or `null`. -/
structure Place where
  id : String
  title : Option String
  imageUrl : Option String
  imagePublicId : Option String
  createdAt : Option String
  updatedAt : Option String
deriving DecidableEq, Repr

/-- The object multer puts in `req.file` for `upload.single`: the in-memory
buffer (bytes) and the MIME type. -/
structure File where
  mimetype : String
  buffer : List Nat
deriving DecidableEq, Repr

/-- The object a body parser puts in `req.body` (the one property read). -/
structure Body where
  title : Option String
deriving DecidableEq, Repr

/-- The part of an incoming request the handlers read: `req.params.id`,
`req.body` (`none`: `undefined`, no body parser matched the request) and
`req.file` (`none`: `undefined`, no file was sent). `req.file` is set by multer
only, which sets `req.body` to an object before it parses any part of a
multipart request (`fileBody`). -/
structure Request where
  paramsId : String
  body : Option Body
  file : Option File
  fileBody : file.isSome = true → body.isSome = true

/-- The value of `req.body.title` when `req.body` is an object. -/
def Request.bodyTitle (req : Request) : Option String :=
  match req.body with
  | some body => body.title
  | none => none

/-- The value `cloudinary.uploader.upload` resolves with (the two properties read). -/
structure UploadResult where
  secure_url : String
  public_id : String
deriving DecidableEq, Repr

/-- A call to the record store or to the media service. -/
inductive Call where
  | dbRead
  | dbWrite (data : List Place)
  | upload (dataURI : String) (folder : String) (resourceType : String)
  | destroy (publicId : String)
deriving DecidableEq, Repr

/-- The data context handed to `res.render`. -/
inductive Context where
  | places (ps : List Place)
  | place (p : Place)
deriving DecidableEq, Repr

/-- What the handler does with `res`, or `uncaught` when a rejection leaves the
async handler without any `res` method having been called. -/
inductive Response where
  | render (view : String) (context : Context)
  | redirect (url : String)
  | send (status : Nat) (body : String)
  | uncaught (error : Err)
deriving DecidableEq, Repr

/-- State acted on by the handlers. `disk` is the collection persisted in
`db.json`, `mem` is `db.data.places`. The hosted media service is external to
the repository; `remote` lists the objects live there as the pairs
`(public_id, secure_url)` that an upload returned together. -/
structure World where
  disk : List Place
  mem : List Place
  remote : List (String × String)
  calls : List Call
deriving DecidableEq, Repr

/-- Outcomes, for one request, of the awaited external calls (`none` / `ok`: the
promise resolves; `some e` / `error e`: it rejects with `e`) and the values of
`crypto.randomUUID()` and `new Date().toISOString()`. A resolved `destroy`
covers every result value of the service (`ok` as well as `not found`): the
handlers never look at it. -/
structure Env where
  read : Option Err
  write : Option Err
  destroy : Option Err
  upload : Except Err UploadResult
  randomUUID : String
  now : String

/-! ## JavaScript helpers -/

/-- JavaScript truthiness of a string-or-null/undefined value:
`null`, `undefined` and the empty string are falsy. -/
def truthy : Option String → Bool
  | none => false
  | some s => s != ""

/-- `Array.prototype.findIndex`; `none` stands for `-1`. -/
def findIndex (f : Place → Bool) : List Place → Option Nat
  | [] => none
  | p :: ps => if f p then some 0 else (findIndex f ps).map (· + 1)

/-- `Array.prototype.find`; `none` stands for `undefined`. -/
def find (f : Place → Bool) : List Place → Option Place
  | [] => none
  | p :: ps => if f p then some p else find f ps

/-- `Array.prototype.splice(start, deleteCount)`: the array after the call (the
returned removed items are not used by the handlers). -/
def splice (ps : List Place) (start deleteCount : Nat) : List Place :=
  ps.take start ++ ps.drop (start + deleteCount)

/-- The base64 alphabet. -/
def base64Alphabet : List Char :=
  "ABCDEFGHIJKLMNOPQRSTUVWXYZabcdefghijklmnopqrstuvwxyz0123456789+/".toList

/-- The base64 digit of a 6-bit value. -/
def base64Digit (n : Nat) : Char :=
  base64Alphabet.getD (n % 64) 'A'

/-- `Buffer.prototype.toString` with encoding `base64` (bytes are taken modulo 256). -/
def base64 : List Nat → List Char
  | [] => []
  | [a] =>
    let a := a % 256
    [base64Digit (a / 4), base64Digit ((a % 4) * 16), '=', '=']
  | [a, b] =>
    let a := a % 256
    let b := b % 256
    [base64Digit (a / 4), base64Digit ((a % 4) * 16 + b / 16), base64Digit ((b % 16) * 4), '=']
  | a :: b :: c :: rest =>
    let a := a % 256
    let b := b % 256
    let c := c % 256
    base64Digit (a / 4) :: base64Digit ((a % 4) * 16 + b / 16)
      :: base64Digit ((b % 16) * 4 + c / 64) :: base64Digit (c % 64) :: base64 rest

/-- The data URI built from `req.file` before each upload. -/
def dataURI (f : File) : String :=
  "data:" ++ f.mimetype ++ ";base64," ++ String.mk (base64 f.buffer)

/-! ## External calls -/

/-- `await db.read()`: on success the in-memory document is replaced by the file
content (the backing file `db.json` is taken to exist); on failure it is kept. -/
def dbRead (env : Env) (w : World) : Except Err Unit × World :=
  match env.read with
  | none => (.ok (), { w with mem := w.disk, calls := w.calls ++ [Call.dbRead] })
  | some e => (.error e, { w with calls := w.calls ++ [Call.dbRead] })

/-- `await db.write()`: on success the file content is replaced by the in-memory
document; on failure the file keeps its previous content. -/
def dbWrite (env : Env) (w : World) : Except Err Unit × World :=
  match env.write with
  | none => (.ok (), { w with disk := w.mem, calls := w.calls ++ [Call.dbWrite w.mem] })
  | some e => (.error e, { w with calls := w.calls ++ [Call.dbWrite w.mem] })

/-- `await cloudinary.uploader.upload(dataURI, options)` with the fixed options
`folder: places`, `resource_type: auto`: on success the returned object is live
at the service. -/
def uploaderUpload (env : Env) (uri : String) (w : World) : Except Err UploadResult × World :=
  match env.upload with
  | .ok r =>
    (.ok r, { w with remote := w.remote ++ [(r.public_id, r.secure_url)],
                     calls := w.calls ++ [Call.upload uri "places" "auto"] })
  | .error e => (.error e, { w with calls := w.calls ++ [Call.upload uri "places" "auto"] })

/-- `await cloudinary.uploader.destroy(publicId)`: when it resolves, no object
with that public id is live any more; when it rejects, the service is unchanged. -/
def uploaderDestroy (env : Env) (publicId : String) (w : World) : Except Err Unit × World :=
  match env.destroy with
  | none =>
    (.ok (), { w with remote := w.remote.filter (fun o => o.1 != publicId),
                      calls := w.calls ++ [Call.destroy publicId] })
  | some e => (.error e, { w with calls := w.calls ++ [Call.destroy publicId] })

/-- The `TypeError` raised when a property of `undefined` is read. -/
def typeErrorUndefined (property : String) : Err :=
  "TypeError: Cannot read properties of undefined (reading " ++ property ++ ")"

/-- The `TypeError` raised when a property is destructured from `undefined`. -/
def typeErrorDestructure (property : String) : Err :=
  "TypeError: Cannot destructure property " ++ property ++ " of req.body as it is undefined."

/-! ## Route handlers -/

/-- Handler `app.get('/')`, lines 35-40: no `try`/`catch`. -/
def listPlaces (env : Env) (w : World) : Response × World :=
  match dbRead env w with
  | (.error e, w1) => (Response.uncaught e, w1)
  | (.ok (), w1) => (Response.render "home" (Context.places w1.mem), w1)

/-- The `catch` clause of `app.post('/places')`, lines 78-81. -/
def createCatch (_error : Err) : Response :=
  Response.send 500 "Error al subir la imagen"

/-- Handler `app.post('/places')`, lines 47-82. Line 51, `const { title } = req.body`,
throws when `req.body` is `undefined`. -/
def createPlace (env : Env) (req : Request) (w : World) : Response × World :=
  match dbRead env w with
  | (.error e, w1) => (createCatch e, w1)
  | (.ok (), w1) =>
    match req.body with
    | none => (createCatch (typeErrorDestructure "title"), w1)
    | some body =>
      let title := body.title
      match req.file with
      | none => (createCatch (typeErrorUndefined "buffer"), w1)
      | some file =>
        match uploaderUpload env (dataURI file) w1 with
        | (.error e, w2) => (createCatch e, w2)
        | (.ok result, w2) =>
          let newPlace : Place :=
            { id := env.randomUUID
              title := title
              imageUrl := some result.secure_url
              imagePublicId := some result.public_id
              createdAt := some env.now
              updatedAt := none }
          let w3 := { w2 with mem := w2.mem ++ [newPlace] }
          match dbWrite env w3 with
          | (.error e, w4) => (createCatch e, w4)
          | (.ok (), w4) => (Response.redirect "/", w4)

/-- The `catch` clause of `app.get('/places/:id/edit')`, lines 98-101. -/
def editFormCatch (_error : Err) : Response :=
  Response.send 500 "Error al cargar el lugar"

/-- Handler `app.get('/places/:id/edit')`, lines 86-102. -/
def editForm (env : Env) (req : Request) (w : World) : Response × World :=
  match dbRead env w with
  | (.error e, w1) => (editFormCatch e, w1)
  | (.ok (), w1) =>
    match find (fun p => p.id == req.paramsId) w1.mem with
    | none => (Response.send 404 "Lugar no encontrado", w1)
    | some place => (Response.render "edit" (Context.place place), w1)

/-- The `catch` clause of `app.post('/places/:id/edit')`, lines 149-152. -/
def editCatch (_error : Err) : Response :=
  Response.send 500 "Error al actualizar el lugar"

/-- Lines 139-147 of `app.post('/places/:id/edit')`: overwrite title and
`updatedAt` of the record at `placeIndex` (image fields as given), write, redirect. -/
def editFinish (env : Env) (title : Option String) (placeIndex : Nat) (place : Place)
    (w : World) : Response × World :=
  let place := { place with title := title, updatedAt := some env.now }
  let w1 := { w with mem := w.mem.set placeIndex place }
  match dbWrite env w1 with
  | (.error e, w2) => (editCatch e, w2)
  | (.ok (), w2) => (Response.redirect "/", w2)

/-- Lines 125-137 of `app.post('/places/:id/edit')`: upload the new image and
overwrite the image fields of the record, then continue with `editFinish`. -/
def editUpload (env : Env) (title : Option String) (placeIndex : Nat) (place : Place)
    (file : File) (w : World) : Response × World :=
  match uploaderUpload env (dataURI file) w with
  | (.error e, w1) => (editCatch e, w1)
  | (.ok result, w1) =>
    let place := { place with imageUrl := some result.secure_url,
                              imagePublicId := some result.public_id }
    let w2 := { w1 with mem := w1.mem.set placeIndex place }
    editFinish env title placeIndex place w2

/-- Handler `app.post('/places/:id/edit')`, lines 105-153. Line 109,
`const { title } = req.body`, throws when `req.body` is `undefined`, before the lookup. -/
def editPlace (env : Env) (req : Request) (w : World) : Response × World :=
  match dbRead env w with
  | (.error e, w1) => (editCatch e, w1)
  | (.ok (), w1) =>
    match req.body with
    | none => (editCatch (typeErrorDestructure "title"), w1)
    | some body =>
      let title := body.title
      match findIndex (fun p => p.id == req.paramsId) w1.mem with
      | none => (Response.send 404 "Lugar no encontrado", w1)
      | some placeIndex =>
        match w1.mem[placeIndex]? with
        | none => (editCatch (typeErrorUndefined "imagePublicId"), w1)
        | some place =>
          match req.file with
          | some file =>
            match place.imagePublicId with
            | some publicId =>
              if truthy (some publicId) then
                match uploaderDestroy env publicId w1 with
                | (.error e, w2) => (editCatch e, w2)
                | (.ok (), w2) => editUpload env title placeIndex place file w2
              else editUpload env title placeIndex place file w1
            | none => editUpload env title placeIndex place file w1
          | none => editFinish env title placeIndex place w1

/-- The `catch` clause of `app.post('/places/:id/delete')`, lines 180-183. -/
def deleteCatch (_error : Err) : Response :=
  Response.send 500 "Error al eliminar el lugar"

/-- Lines 174-178 of `app.post('/places/:id/delete')`: splice, write, redirect. -/
def deleteFinish (env : Env) (placeIndex : Nat) (w : World) : Response × World :=
  let w1 := { w with mem := splice w.mem placeIndex 1 }
  match dbWrite env w1 with
  | (.error e, w2) => (deleteCatch e, w2)
  | (.ok (), w2) => (Response.redirect "/", w2)

/-- Handler `app.post('/places/:id/delete')`, lines 156-184. -/
def deletePlace (env : Env) (req : Request) (w : World) : Response × World :=
  match dbRead env w with
  | (.error e, w1) => (deleteCatch e, w1)
  | (.ok (), w1) =>
    let placeId := req.paramsId
    match findIndex (fun p => p.id == placeId) w1.mem with
    | none => (Response.send 404 "Lugar no encontrado", w1)
    | some placeIndex =>
      match w1.mem[placeIndex]? with
      | none => (deleteCatch (typeErrorUndefined "imagePublicId"), w1)
      | some place =>
        match place.imagePublicId with
        | some publicId =>
          if truthy (some publicId) then
            match uploaderDestroy env publicId w1 with
            | (.error e, w2) => (deleteCatch e, w2)
            | (.ok (), w2) => deleteFinish env placeIndex w2
          else deleteFinish env placeIndex w1
        | none => deleteFinish env placeIndex w1

/-! ## Predicates and sample data used in the statements -/

/-- A call to the media service (upload or destroy). -/
def Call.isRemote : Call → Bool
  | .upload _ _ _ => true
  | .destroy _ => true
  | _ => false

/-- A `destroy` call to the media service. -/
def Call.isDestroy : Call → Bool
  | .destroy _ => true
  | _ => false

/-- A store write. -/
def Call.isWrite : Call → Bool
  | .dbWrite _ => true
  | _ => false

/-- The `destroy` call the edit and delete handlers make for a record, if any:
one call when `imagePublicId` is truthy (neither null nor empty), none otherwise. -/
def destroyCallsFor (p : Place) : List Call :=
  match p.imagePublicId with
  | some publicId => if truthy (some publicId) then [Call.destroy publicId] else []
  | none => []

/-- Sample record: a place whose image is live at the media service. -/
def exPlaceA : Place :=
  { id := "3b241101-e2bb-4255-8caf-4136c566a962"
    title := some "Lighthouse"
    imageUrl := some "https://res.cloudinary.com/demo/image/upload/v1/places/abc.jpg"
    imagePublicId := some "places/abc"
    createdAt := some "2024-01-01T10:00:00.000Z"
    updatedAt := none }

/-- Sample record: a second place with its own image. -/
def exPlaceB : Place :=
  { id := "9f1c2d3e-4a5b-4c6d-8e7f-0a1b2c3d4e5f"
    title := some "Harbour"
    imageUrl := some "https://res.cloudinary.com/demo/image/upload/v1/places/xyz.jpg"
    imagePublicId := some "places/xyz"
    createdAt := some "2024-01-02T10:00:00.000Z"
    updatedAt := none }

/-- Sample state: two stored places, both images live. -/
def exWorld : World :=
  { disk := [exPlaceA, exPlaceB]
    mem := []
    remote := [("places/abc", "https://res.cloudinary.com/demo/image/upload/v1/places/abc.jpg"),
               ("places/xyz", "https://res.cloudinary.com/demo/image/upload/v1/places/xyz.jpg")]
    calls := [] }

/-- Sample outcomes: every external call resolves. -/
def exEnv : Env :=
  { read := none
    write := none
    destroy := none
    upload := .ok { secure_url := "https://res.cloudinary.com/demo/image/upload/v2/places/new.jpg"
                    public_id := "places/new" }
    randomUUID := "0d9e8f7a-6b5c-4d3e-9f2a-1b0c9d8e7f6a"
    now := "2024-03-03T12:00:00.000Z" }

/-- Sample uploaded file (the first bytes of a JPEG). -/
def exFile : File :=
  { mimetype := "image/jpeg", buffer := [255, 216, 255] }

/-- Sample request addressed to `exPlaceA`, carrying a title and a file. -/
def exRequest : Request :=
  { paramsId := "3b241101-e2bb-4255-8caf-4136c566a962"
    body := some { title := some "Lighthouse Point" }
    file := some exFile
    fileBody := fun _ => rfl }

/-- Sample request addressed to `exPlaceA`, carrying a title and no file. -/
def exRequestNoFile : Request :=
  { paramsId := "3b241101-e2bb-4255-8caf-4136c566a962"
    body := some { title := some "Lighthouse Point" }
    file := none
    fileBody := fun _ => rfl }

/-- Sample request addressed to `exPlaceA` that no body parser matched:
`req.body` and `req.file` are `undefined`. -/
def exRequestNoBody : Request :=
  { paramsId := "3b241101-e2bb-4255-8caf-4136c566a962"
    body := none
    file := none
    fileBody := fun h => h }

/-- Sample request addressed to an id no stored record carries, with title and file. -/
def exRequestMissing : Request :=
  { paramsId := "ffffffff-ffff-4fff-8fff-ffffffffffff"
    body := some { title := some "Lighthouse Point" }
    file := some exFile
    fileBody := fun _ => rfl }

/-- Sample request addressed to an id no stored record carries, which no body
parser matched. -/
def exRequestMissingNoBody : Request :=
  { paramsId := "ffffffff-ffff-4fff-8fff-ffffffffffff"
    body := none
    file := none
    fileBody := fun h => h }

/-- Sample outcomes: the upload rejects, every other call resolves. -/
def exEnvUploadFails : Env :=
  { exEnv with upload := .error "ECONNRESET" }

/-- Sample outcomes: the destroy call rejects, every other call resolves. -/
def exEnvDestroyFails : Env :=
  { exEnv with destroy := some "ETIMEDOUT" }

/-- Sample outcomes: the store read rejects, every other call resolves. -/
def exEnvReadFails : Env :=
  { exEnv with read := some "EACCES" }

/-- Sample outcomes: the store write rejects, every other call resolves. -/
def exEnvWriteFails : Env :=
  { exEnv with write := some "ENOSPC" }

/-- The run from `w` with outcome `r` had no effect beyond reading the store:
persisted collection and remote objects unchanged, and the only call made is
the store read (no store write, no upload, no destroy). -/
def ReadOnlyOutcome (w : World) (r : Response × World) : Prop :=
  r.2.disk = w.disk ∧ r.2.remote = w.remote ∧ r.2.calls = w.calls ++ [Call.dbRead]

/-- Sample record whose `imagePublicId` is the empty string (non-null, falsy). -/
def exPlaceEmptyPublicId : Place :=
  { exPlaceA with imagePublicId := some "" }

/-- Sample state holding only `exPlaceEmptyPublicId`. -/
def exWorldEmptyPublicId : World :=
  { disk := [exPlaceEmptyPublicId], mem := [], remote := [], calls := [] }

/-- The image reference of a record is live: a record with a non-null
`imagePublicId` has an `imageUrl`, and that pair of public id and URL is an
object live at the media service. -/
def imageRefLive (remote : List (String × String)) (p : Place) : Bool :=
  match p.imagePublicId with
  | none => true
  | some publicId =>
    match p.imageUrl with
    | none => false
    | some url => remote.contains (publicId, url)

/-- Image-reference invariant: every record's image reference is live. -/
def imageRefsLive (remote : List (String × String)) (ps : List Place) : Bool :=
  ps.all (imageRefLive remote)

/-- The non-null public ids carried by the records, in order. -/
def publicIds (ps : List Place) : List String :=
  ps.filterMap (fun p => p.imagePublicId)

/-- The run from `w` with outcome `r` made a destroy call, that call resolved,
and the handler did not reach its redirect (it answered with a failure). -/
def destroyedThenFailed (env : Env) (w : World) (r : Response × World) : Bool :=
  (r.2.calls.drop w.calls.length).any Call.isDestroy && env.destroy.isNone &&
    (r.1 != Response.redirect "/")

/-- Sample state: two stored places referring to the same live remote object. -/
def exWorldSharedImage : World :=
  { disk := [exPlaceA, { exPlaceB with imageUrl := exPlaceA.imageUrl,
                                       imagePublicId := exPlaceA.imagePublicId }]
    mem := []
    remote := [("places/abc", "https://res.cloudinary.com/demo/image/upload/v1/places/abc.jpg")]
    calls := [] }


/-! ## List lemmas -/

theorem findIndex_append_cons (f : Place → Bool) (pre : List Place) (p : Place)
    (post : List Place) (hp : f p = true) (hpre : ∀ q ∈ pre, f q = false) :
    findIndex f (pre ++ p :: post) = some pre.length := by
  induction pre with
  | nil => simp [findIndex, hp]
  | cons a as ih =>
    have ha : f a = false := hpre a (by simp)
    have hx : ∀ q ∈ as, f q = false := fun q hq => hpre q (by simp [hq])
    simp [findIndex, ha, ih hx]

theorem findIndex_eq_none (f : Place → Bool) (ps : List Place)
    (h : ∀ q ∈ ps, f q = false) : findIndex f ps = none := by
  induction ps with
  | nil => rfl
  | cons a as ih =>
    have ha : f a = false := h a (by simp)
    have hx : ∀ q ∈ as, f q = false := fun q hq => h q (by simp [hq])
    simp [findIndex, ha, ih hx]

theorem find_eq_none (f : Place → Bool) (ps : List Place)
    (h : ∀ q ∈ ps, f q = false) : find f ps = none := by
  induction ps with
  | nil => rfl
  | cons a as ih =>
    have ha : f a = false := h a (by simp)
    have hx : ∀ q ∈ as, f q = false := fun q hq => h q (by simp [hq])
    simp [find, ha, ih hx]

theorem find_some_mem (f : Place → Bool) (ps : List Place) (p : Place)
    (h : find f ps = some p) : p ∈ ps := by
  induction ps with
  | nil => simp [find] at h
  | cons a as ih =>
    by_cases ha : f a = true
    · simp [find, ha] at h
      simp [h]
    · have ha2 : f a = false := by simpa using ha
      simp only [find, ha2] at h
      exact List.mem_cons_of_mem _ (ih (by simpa using h))

theorem findIndex_some_split (f : Place → Bool) (ps : List Place) (i : Nat)
    (h : findIndex f ps = some i) :
    ∃ pre p post, ps = pre ++ p :: post ∧ pre.length = i ∧ f p = true ∧
      ∀ q ∈ pre, f q = false := by
  induction ps generalizing i with
  | nil => simp [findIndex] at h
  | cons a as ih =>
    by_cases ha : f a = true
    · simp [findIndex, ha] at h
      exact ⟨[], a, as, by simp, by simp [h], ha, by simp⟩
    · have ha2 : f a = false := by simpa using ha
      simp only [findIndex, ha2] at h
      cases hrec : findIndex f as with
      | none => simp [hrec] at h
      | some j =>
        simp [hrec] at h
        obtain ⟨pre, p, post, h1, h2, h3, h4⟩ := ih j hrec
        refine ⟨a :: pre, p, post, by simp [h1], by simp [h2, h], h3, ?_⟩
        intro q hq
        rcases List.mem_cons.mp hq with rfl | hq
        · exact ha2
        · exact h4 q hq

theorem getElem?_append_cons (pre : List Place) (p : Place) (post : List Place) :
    (pre ++ p :: post)[pre.length]? = some p := by
  rw [List.getElem?_append_right (Nat.le_refl _)]
  simp

theorem set_append_cons (pre : List Place) (p q : Place) (post : List Place) :
    (pre ++ p :: post).set pre.length q = pre ++ q :: post := by
  induction pre with
  | nil => rfl
  | cons a as ih => simp [ih]

theorem splice_append_cons (pre : List Place) (p : Place) (post : List Place) :
    splice (pre ++ p :: post) pre.length 1 = pre ++ post := by
  simp [splice, List.take_append_eq_append_take, List.drop_append_eq_append_drop]

theorem id_beq_false_of_ne (id : String) (pre : List Place)
    (h : ∀ q ∈ pre, q.id ≠ id) : ∀ q ∈ pre, (fun p : Place => p.id == id) q = false := by
  intro q hq
  simpa using h q hq

theorem body_of_file (req : Request) (file : File) (hfile : req.file = some file) :
    ∃ body, req.body = some body ∧ req.bodyTitle = body.title := by
  have h := req.fileBody (by simp [hfile])
  cases hb : req.body with
  | none => simp [hb] at h
  | some body => exact ⟨body, rfl, by simp [Request.bodyTitle, hb]⟩

/-! ## Create -/

theorem createPlace_success (env : Env) (req : Request) (w : World) (file : File)
    (result : UploadResult) (hread : env.read = none) (hfile : req.file = some file)
    (hupload : env.upload = .ok result) (hwrite : env.write = none) :
    (createPlace env req w).1 = Response.redirect "/" ∧
    (createPlace env req w).2.disk =
      w.disk ++ [{ id := env.randomUUID, title := req.bodyTitle,
                   imageUrl := some result.secure_url,
                   imagePublicId := some result.public_id,
                   createdAt := some env.now, updatedAt := none }] := by
  obtain ⟨body, hbody, htitle⟩ := body_of_file req file hfile
  constructor <;>
    simp [createPlace, dbRead, uploaderUpload, dbWrite, hread, hfile, hupload, hwrite, hbody,
      htitle]

/-- C1. Create with successful upload and store write: the persisted collection
afterwards is the previous one with exactly one record appended at the end; the
new record carries the request title and the upload result's `secure_url` and
`public_id`; every earlier record keeps its position and value. -/
theorem create_appends_one_record (env : Env) (req : Request) (w : World) (file : File)
    (result : UploadResult) (hread : env.read = none) (hfile : req.file = some file)
    (hupload : env.upload = .ok result) (hwrite : env.write = none) :
    (createPlace env req w).1 = Response.redirect "/" ∧
    (createPlace env req w).2.disk =
      w.disk ++ [{ id := env.randomUUID, title := req.bodyTitle,
                   imageUrl := some result.secure_url,
                   imagePublicId := some result.public_id,
                   createdAt := some env.now, updatedAt := none }] ∧
    (createPlace env req w).2.disk.length = w.disk.length + 1 ∧
    ∀ i, i < w.disk.length → (createPlace env req w).2.disk[i]? = w.disk[i]? := by
  obtain ⟨hresp, hd⟩ := createPlace_success env req w file result hread hfile hupload hwrite
  refine ⟨hresp, hd, ?_, ?_⟩
  · rw [hd]; simp
  · intro i hi
    rw [hd, List.getElem?_append_left hi]

theorem create_appends_one_record_witness :
    exEnv.read = none ∧ exRequest.file = some exFile ∧
    (createPlace exEnv exRequest exWorld).1 = Response.redirect "/" ∧
    (createPlace exEnv exRequest exWorld).2.disk =
      exWorld.disk ++ [{ id := exEnv.randomUUID, title := exRequest.bodyTitle,
                         imageUrl := some "https://res.cloudinary.com/demo/image/upload/v2/places/new.jpg",
                         imagePublicId := some "places/new",
                         createdAt := some exEnv.now, updatedAt := none }] ∧
    (createPlace exEnv exRequest exWorld).2.disk.length = exWorld.disk.length + 1 ∧
    ∀ i, i < exWorld.disk.length →
      (createPlace exEnv exRequest exWorld).2.disk[i]? = exWorld.disk[i]? :=
  ⟨rfl, rfl, create_appends_one_record exEnv exRequest exWorld exFile
    { secure_url := "https://res.cloudinary.com/demo/image/upload/v2/places/new.jpg"
      public_id := "places/new" } rfl rfl rfl rfl⟩

/-- C7. Create when the upload fails: the response is the generic failure
response (status 500), the persisted collection is unchanged, no record is
added to the in-memory collection either, and no store write is made. -/
theorem create_upload_failure_creates_nothing (env : Env) (req : Request) (w : World)
    (e : Err) (hupload : env.upload = .error e) :
    (createPlace env req w).1 = Response.send 500 "Error al subir la imagen" ∧
    (createPlace env req w).2.disk = w.disk ∧
    (env.read = none → (createPlace env req w).2.mem = w.disk) ∧
    ∃ cs, (createPlace env req w).2.calls = w.calls ++ cs ∧ ∀ c ∈ cs, c.isWrite = false := by
  cases hr : env.read with
  | some e1 =>
    refine ⟨?_, ?_, ?_, [Call.dbRead], ?_, ?_⟩ <;>
      simp [createPlace, dbRead, hr, createCatch, Call.isWrite]
  | none =>
    cases hb : req.body with
    | none =>
      refine ⟨?_, ?_, ?_, [Call.dbRead], ?_, ?_⟩ <;>
        simp [createPlace, dbRead, hr, hb, createCatch, Call.isWrite]
    | some body =>
      cases hf : req.file with
      | none =>
        refine ⟨?_, ?_, ?_, [Call.dbRead], ?_, ?_⟩ <;>
          simp [createPlace, dbRead, hr, hb, hf, createCatch, Call.isWrite]
      | some file =>
        refine ⟨?_, ?_, ?_, [Call.dbRead, Call.upload (dataURI file) "places" "auto"], ?_, ?_⟩ <;>
          simp [createPlace, dbRead, uploaderUpload, hr, hb, hf, hupload, createCatch,
            Call.isWrite]

theorem create_upload_failure_creates_nothing_witness :
    (createPlace exEnvUploadFails exRequest exWorld).1
        = Response.send 500 "Error al subir la imagen" ∧
    (createPlace exEnvUploadFails exRequest exWorld).2.disk
        = exWorld.disk ∧
    (exEnvUploadFails.read = none → (createPlace exEnvUploadFails exRequest exWorld).2.mem
        = exWorld.disk) ∧
    ∃ cs, (createPlace exEnvUploadFails exRequest exWorld).2.calls
        = exWorld.calls ++ cs ∧ ∀ c ∈ cs, c.isWrite = false :=
  create_upload_failure_creates_nothing exEnvUploadFails
    exRequest exWorld "ECONNRESET" rfl

/-! ## Delete -/

theorem deleteFinish_write_ok (env : Env) (w : World) (pre : List Place) (p : Place)
    (post : List Place) (hmem : w.mem = pre ++ p :: post) (hw : env.write = none) :
    deleteFinish env pre.length w =
      (Response.redirect "/",
        { w with disk := pre ++ post, mem := pre ++ post,
                 calls := w.calls ++ [Call.dbWrite (pre ++ post)] }) := by
  simp [deleteFinish, dbWrite, hw, hmem, splice_append_cons]

theorem deleteFinish_write_fails (env : Env) (w : World) (pre : List Place) (p : Place)
    (post : List Place) (e : Err) (hmem : w.mem = pre ++ p :: post) (hw : env.write = some e) :
    deleteFinish env pre.length w =
      (Response.send 500 "Error al eliminar el lugar",
        { w with mem := pre ++ post, calls := w.calls ++ [Call.dbWrite (pre ++ post)] }) := by
  simp [deleteFinish, dbWrite, hw, hmem, splice_append_cons, deleteCatch]

theorem deletePlace_read_fails (env : Env) (req : Request) (w : World) (e : Err)
    (hr : env.read = some e) :
    deletePlace env req w =
      (Response.send 500 "Error al eliminar el lugar",
        { w with calls := w.calls ++ [Call.dbRead] }) := by
  simp [deletePlace, dbRead, hr, deleteCatch]

theorem deletePlace_not_found (env : Env) (req : Request) (w : World)
    (hr : env.read = none) (hnone : ∀ q ∈ w.disk, q.id ≠ req.paramsId) :
    deletePlace env req w =
      (Response.send 404 "Lugar no encontrado",
        { w with mem := w.disk, calls := w.calls ++ [Call.dbRead] }) := by
  have hfi := findIndex_eq_none (fun q => q.id == req.paramsId) w.disk
    (id_beq_false_of_ne req.paramsId w.disk hnone)
  simp [deletePlace, dbRead, hr, hfi]

theorem deletePlace_found_falsy (env : Env) (req : Request) (w : World)
    (pre : List Place) (p : Place) (post : List Place)
    (hdisk : w.disk = pre ++ p :: post) (hid : p.id = req.paramsId)
    (hfirst : ∀ q ∈ pre, q.id ≠ req.paramsId) (hr : env.read = none)
    (hfalsy : truthy p.imagePublicId = false) :
    deletePlace env req w =
      deleteFinish env pre.length { w with mem := w.disk, calls := w.calls ++ [Call.dbRead] } := by
  have hfi := findIndex_append_cons (fun q => q.id == req.paramsId) pre p post
    (by simp [hid]) (id_beq_false_of_ne req.paramsId pre hfirst)
  have hget := getElem?_append_cons pre p post
  cases hpid : p.imagePublicId with
  | none => simp [deletePlace, dbRead, hr, hdisk, hfi, hget, hpid]
  | some publicId =>
    rw [hpid] at hfalsy
    simp [deletePlace, dbRead, hr, hdisk, hfi, hget, hpid, hfalsy]

theorem deletePlace_found_destroy_ok (env : Env) (req : Request) (w : World)
    (pre : List Place) (p : Place) (post : List Place) (publicId : String)
    (hdisk : w.disk = pre ++ p :: post) (hid : p.id = req.paramsId)
    (hfirst : ∀ q ∈ pre, q.id ≠ req.paramsId) (hr : env.read = none)
    (hpid : p.imagePublicId = some publicId) (htruthy : truthy (some publicId) = true)
    (hd : env.destroy = none) :
    deletePlace env req w =
      deleteFinish env pre.length
        { w with mem := w.disk,
                 remote := w.remote.filter (fun o => o.1 != publicId),
                 calls := w.calls ++ [Call.dbRead, Call.destroy publicId] } := by
  have hfi := findIndex_append_cons (fun q => q.id == req.paramsId) pre p post
    (by simp [hid]) (id_beq_false_of_ne req.paramsId pre hfirst)
  have hget := getElem?_append_cons pre p post
  simp [deletePlace, dbRead, uploaderDestroy, hr, hdisk, hfi, hget, hpid, htruthy, hd]

theorem deletePlace_found_destroy_fails (env : Env) (req : Request) (w : World)
    (pre : List Place) (p : Place) (post : List Place) (publicId : String) (e : Err)
    (hdisk : w.disk = pre ++ p :: post) (hid : p.id = req.paramsId)
    (hfirst : ∀ q ∈ pre, q.id ≠ req.paramsId) (hr : env.read = none)
    (hpid : p.imagePublicId = some publicId) (htruthy : truthy (some publicId) = true)
    (hd : env.destroy = some e) :
    deletePlace env req w =
      (Response.send 500 "Error al eliminar el lugar",
        { w with mem := w.disk, calls := w.calls ++ [Call.dbRead, Call.destroy publicId] }) := by
  have hfi := findIndex_append_cons (fun q => q.id == req.paramsId) pre p post
    (by simp [hid]) (id_beq_false_of_ne req.paramsId pre hfirst)
  have hget := getElem?_append_cons pre p post
  simp [deletePlace, dbRead, uploaderDestroy, hr, hdisk, hfi, hget, hpid, htruthy, hd,
    deleteCatch]

theorem mem_disk_split (req : Request) (disk : List Place) (i : Nat)
    (h : findIndex (fun q => q.id == req.paramsId) disk = some i) :
    ∃ pre p post, disk = pre ++ p :: post ∧ p.id = req.paramsId ∧
      ∀ q ∈ pre, q.id ≠ req.paramsId := by
  obtain ⟨pre, p, post, h1, _, h3, h4⟩ := findIndex_some_split _ disk i h
  refine ⟨pre, p, post, h1, by simpa using h3, ?_⟩
  intro q hq
  simpa using h4 q hq

theorem found_or_absent (req : Request) (disk : List Place) :
    (∀ q ∈ disk, q.id ≠ req.paramsId) ∨
    ∃ pre p post, disk = pre ++ p :: post ∧ p.id = req.paramsId ∧
      ∀ q ∈ pre, q.id ≠ req.paramsId := by
  cases h : findIndex (fun q => q.id == req.paramsId) disk with
  | some i => exact Or.inr (mem_disk_split req disk i h)
  | none =>
    left
    intro q hq hqid
    induction disk with
    | nil => simp at hq
    | cons a as ih =>
      by_cases ha : a.id = req.paramsId
      · simp [findIndex, ha] at h
      · have hrest : findIndex (fun q => q.id == req.paramsId) as = none := by
          simpa [findIndex, ha] using h
        rcases List.mem_cons.mp hq with rfl | hq2
        · exact ha hqid
        · exact ih hrest hq2

/-- C4. Delete of an existing record in a collection with pairwise distinct ids:
after a successful delete (the handler answered with the redirect) the
persisted collection is the previous one with exactly the addressed record
removed, the remaining records unchanged and in their original order; it has
one record less and contains no record with that id. -/
theorem delete_removes_exactly_the_record (env : Env) (req : Request) (w : World)
    (hok : (deletePlace env req w).1 = Response.redirect "/")
    (hnodup : (w.disk.map (fun q => q.id)).Nodup) :
    ∃ pre p post, w.disk = pre ++ p :: post ∧ p.id = req.paramsId ∧
      (deletePlace env req w).2.disk = pre ++ post ∧
      (deletePlace env req w).2.disk.length + 1 = w.disk.length ∧
      ∀ q ∈ (deletePlace env req w).2.disk, q.id ≠ req.paramsId := by
  cases hr : env.read with
  | some e => simp [deletePlace_read_fails env req w e hr] at hok
  | none =>
    rcases found_or_absent req w.disk with hnone | ⟨pre, p, post, hdisk, hid, hfirst⟩
    · simp [deletePlace_not_found env req w hr hnone] at hok
    · have hfin : (deletePlace env req w).2.disk = pre ++ post := by
        cases hw : env.write with
        | some e =>
          exfalso
          by_cases ht : truthy p.imagePublicId = true
          · cases hpid : p.imagePublicId with
            | none => simp [hpid, truthy] at ht
            | some publicId =>
              rw [hpid] at ht
              cases hd : env.destroy with
              | some e2 =>
                simp [deletePlace_found_destroy_fails env req w pre p post publicId e2
                  hdisk hid hfirst hr hpid ht hd] at hok
              | none =>
                rw [deletePlace_found_destroy_ok env req w pre p post publicId
                  hdisk hid hfirst hr hpid ht hd,
                  deleteFinish_write_fails env _ pre p post e hdisk hw] at hok
                simp at hok
          · have hf : truthy p.imagePublicId = false := by simpa using ht
            rw [deletePlace_found_falsy env req w pre p post hdisk hid hfirst hr hf,
              deleteFinish_write_fails env _ pre p post e hdisk hw] at hok
            simp at hok
        | none =>
          by_cases ht : truthy p.imagePublicId = true
          · cases hpid : p.imagePublicId with
            | none => simp [hpid, truthy] at ht
            | some publicId =>
              rw [hpid] at ht
              cases hd : env.destroy with
              | some e2 =>
                simp [deletePlace_found_destroy_fails env req w pre p post publicId e2
                  hdisk hid hfirst hr hpid ht hd] at hok
              | none =>
                rw [deletePlace_found_destroy_ok env req w pre p post publicId
                  hdisk hid hfirst hr hpid ht hd,
                  deleteFinish_write_ok env _ pre p post hdisk hw]
          · have hf : truthy p.imagePublicId = false := by simpa using ht
            rw [deletePlace_found_falsy env req w pre p post hdisk hid hfirst hr hf,
              deleteFinish_write_ok env _ pre p post hdisk hw]
      refine ⟨pre, p, post, hdisk, hid, hfin, ?_, ?_⟩
      · rw [hfin, hdisk]; simp; omega
      · rw [hfin]
        intro q hq hqid
        rw [hdisk] at hnodup
        simp only [List.map_append, List.map_cons] at hnodup
        have hq2 : q.id ∈ List.map (fun q => q.id) pre ++ List.map (fun q => q.id) post := by
          rw [← List.map_append]
          exact List.mem_map.mpr ⟨q, hq, rfl⟩
        have hnd := List.nodup_middle.mp hnodup
        rw [List.nodup_cons] at hnd
        exact hnd.1 (by rw [hid, ← hqid]; exact hq2)

theorem delete_removes_exactly_the_record_witness :
    (deletePlace exEnv exRequest exWorld).1 = Response.redirect "/" ∧
    (exWorld.disk.map (fun q => q.id)).Nodup ∧
    ∃ pre p post, exWorld.disk = pre ++ p :: post ∧ p.id = exRequest.paramsId ∧
      (deletePlace exEnv exRequest exWorld).2.disk = pre ++ post ∧
      (deletePlace exEnv exRequest exWorld).2.disk.length + 1 = exWorld.disk.length ∧
      ∀ q ∈ (deletePlace exEnv exRequest exWorld).2.disk, q.id ≠ exRequest.paramsId :=
  ⟨by decide, by decide,
    delete_removes_exactly_the_record exEnv exRequest exWorld (by decide) (by decide)⟩

/-! ## Edit: outcome of each path -/

theorem editFinish_write_ok (env : Env) (title : Option String) (w : World)
    (pre : List Place) (x p : Place) (post : List Place)
    (hmem : w.mem = pre ++ x :: post) (hw : env.write = none) :
    editFinish env title pre.length p w =
      (Response.redirect "/",
        { w with disk := pre ++ { p with title := title, updatedAt := some env.now } :: post,
                 mem := pre ++ { p with title := title, updatedAt := some env.now } :: post,
                 calls := w.calls ++ [Call.dbWrite
                   (pre ++ { p with title := title, updatedAt := some env.now } :: post)] }) := by
  simp [editFinish, dbWrite, hw, hmem, set_append_cons]

theorem editFinish_write_fails (env : Env) (title : Option String) (w : World)
    (pre : List Place) (x p : Place) (post : List Place) (e : Err)
    (hmem : w.mem = pre ++ x :: post) (hw : env.write = some e) :
    editFinish env title pre.length p w =
      (Response.send 500 "Error al actualizar el lugar",
        { w with mem := pre ++ { p with title := title, updatedAt := some env.now } :: post,
                 calls := w.calls ++ [Call.dbWrite
                   (pre ++ { p with title := title, updatedAt := some env.now } :: post)] }) := by
  simp [editFinish, dbWrite, hw, hmem, set_append_cons, editCatch]

theorem editUpload_fails (env : Env) (title : Option String) (i : Nat) (p : Place)
    (file : File) (w : World) (e : Err) (hu : env.upload = .error e) :
    editUpload env title i p file w =
      (Response.send 500 "Error al actualizar el lugar",
        { w with calls := w.calls ++ [Call.upload (dataURI file) "places" "auto"] }) := by
  simp [editUpload, uploaderUpload, hu, editCatch]

theorem editUpload_ok (env : Env) (title : Option String) (w : World)
    (pre : List Place) (p : Place) (post : List Place) (file : File) (result : UploadResult)
    (hmem : w.mem = pre ++ p :: post) (hu : env.upload = .ok result) :
    editUpload env title pre.length p file w =
      editFinish env title pre.length
        { p with imageUrl := some result.secure_url, imagePublicId := some result.public_id }
        { w with mem := pre ++ { p with imageUrl := some result.secure_url,
                                        imagePublicId := some result.public_id } :: post,
                 remote := w.remote ++ [(result.public_id, result.secure_url)],
                 calls := w.calls ++ [Call.upload (dataURI file) "places" "auto"] } := by
  simp [editUpload, uploaderUpload, hu, hmem, set_append_cons]

theorem editPlace_read_fails (env : Env) (req : Request) (w : World) (e : Err)
    (hr : env.read = some e) :
    editPlace env req w =
      (Response.send 500 "Error al actualizar el lugar",
        { w with calls := w.calls ++ [Call.dbRead] }) := by
  simp [editPlace, dbRead, hr, editCatch]

theorem editPlace_no_body (env : Env) (req : Request) (w : World)
    (hr : env.read = none) (hbody : req.body = none) :
    editPlace env req w =
      (Response.send 500 "Error al actualizar el lugar",
        { w with mem := w.disk, calls := w.calls ++ [Call.dbRead] }) := by
  simp [editPlace, dbRead, hr, hbody, editCatch]

theorem editPlace_not_found (env : Env) (req : Request) (w : World) (body : Body)
    (hr : env.read = none) (hbody : req.body = some body)
    (hnone : ∀ q ∈ w.disk, q.id ≠ req.paramsId) :
    editPlace env req w =
      (Response.send 404 "Lugar no encontrado",
        { w with mem := w.disk, calls := w.calls ++ [Call.dbRead] }) := by
  have hfi := findIndex_eq_none (fun q => q.id == req.paramsId) w.disk
    (id_beq_false_of_ne req.paramsId w.disk hnone)
  simp [editPlace, dbRead, hr, hbody, hfi]

theorem editPlace_found_no_file (env : Env) (req : Request) (w : World) (body : Body)
    (pre : List Place) (p : Place) (post : List Place)
    (hdisk : w.disk = pre ++ p :: post) (hid : p.id = req.paramsId)
    (hfirst : ∀ q ∈ pre, q.id ≠ req.paramsId) (hr : env.read = none) (hbody : req.body = some body)
    (hfile : req.file = none) :
    editPlace env req w =
      editFinish env body.title pre.length p
        { w with mem := w.disk, calls := w.calls ++ [Call.dbRead] } := by
  have hfi := findIndex_append_cons (fun q => q.id == req.paramsId) pre p post
    (by simp [hid]) (id_beq_false_of_ne req.paramsId pre hfirst)
  have hget := getElem?_append_cons pre p post
  simp [editPlace, dbRead, hbody, hr, hdisk, hfi, hget, hfile]

theorem editPlace_found_file_falsy (env : Env) (req : Request) (w : World) (body : Body)
    (pre : List Place) (p : Place) (post : List Place) (file : File)
    (hdisk : w.disk = pre ++ p :: post) (hid : p.id = req.paramsId)
    (hfirst : ∀ q ∈ pre, q.id ≠ req.paramsId) (hr : env.read = none) (hbody : req.body = some body)
    (hfile : req.file = some file) (hfalsy : truthy p.imagePublicId = false) :
    editPlace env req w =
      editUpload env body.title pre.length p file
        { w with mem := w.disk, calls := w.calls ++ [Call.dbRead] } := by
  have hfi := findIndex_append_cons (fun q => q.id == req.paramsId) pre p post
    (by simp [hid]) (id_beq_false_of_ne req.paramsId pre hfirst)
  have hget := getElem?_append_cons pre p post
  cases hpid : p.imagePublicId with
  | none => simp [editPlace, dbRead, hbody, hr, hdisk, hfi, hget, hfile, hpid]
  | some publicId =>
    rw [hpid] at hfalsy
    simp [editPlace, dbRead, hbody, hr, hdisk, hfi, hget, hfile, hpid, hfalsy]

theorem editPlace_found_file_destroy_ok (env : Env) (req : Request) (w : World) (body : Body)
    (pre : List Place) (p : Place) (post : List Place) (file : File) (publicId : String)
    (hdisk : w.disk = pre ++ p :: post) (hid : p.id = req.paramsId)
    (hfirst : ∀ q ∈ pre, q.id ≠ req.paramsId) (hr : env.read = none) (hbody : req.body = some body)
    (hfile : req.file = some file) (hpid : p.imagePublicId = some publicId)
    (htruthy : truthy (some publicId) = true) (hd : env.destroy = none) :
    editPlace env req w =
      editUpload env body.title pre.length p file
        { w with mem := w.disk,
                 remote := w.remote.filter (fun o => o.1 != publicId),
                 calls := w.calls ++ [Call.dbRead, Call.destroy publicId] } := by
  have hfi := findIndex_append_cons (fun q => q.id == req.paramsId) pre p post
    (by simp [hid]) (id_beq_false_of_ne req.paramsId pre hfirst)
  have hget := getElem?_append_cons pre p post
  simp [editPlace, dbRead, hbody, uploaderDestroy, hr, hdisk, hfi, hget, hfile, hpid, htruthy, hd]

theorem editPlace_found_file_destroy_fails (env : Env) (req : Request) (w : World) (body : Body)
    (pre : List Place) (p : Place) (post : List Place) (file : File) (publicId : String)
    (e : Err) (hdisk : w.disk = pre ++ p :: post) (hid : p.id = req.paramsId)
    (hfirst : ∀ q ∈ pre, q.id ≠ req.paramsId) (hr : env.read = none) (hbody : req.body = some body)
    (hfile : req.file = some file) (hpid : p.imagePublicId = some publicId)
    (htruthy : truthy (some publicId) = true) (hd : env.destroy = some e) :
    editPlace env req w =
      (Response.send 500 "Error al actualizar el lugar",
        { w with mem := w.disk, calls := w.calls ++ [Call.dbRead, Call.destroy publicId] }) := by
  have hfi := findIndex_append_cons (fun q => q.id == req.paramsId) pre p post
    (by simp [hid]) (id_beq_false_of_ne req.paramsId pre hfirst)
  have hget := getElem?_append_cons pre p post
  simp [editPlace, dbRead, hbody, uploaderDestroy, hr, hdisk, hfi, hget, hfile, hpid, htruthy, hd,
    editCatch]

/-! ## Edit without a new image -/

/-- C3 (as stated, refuted). Edit without a new image of a stored record, in
three runs that leave the persisted record with its old title and without
`updatedAt`: (1) the request has no parsed body (`req.body` is `undefined`), so
line 109 throws before the lookup; (2) the store read rejects; (3) the store
write rejects. Each is answered with the generic failure response. -/
theorem edit_without_file_can_leave_title_unchanged :
    exWorld.disk = [exPlaceA, exPlaceB] ∧
    exRequestNoBody.paramsId = exPlaceA.id ∧ exRequestNoBody.file = none ∧
    exRequestNoFile.paramsId = exPlaceA.id ∧ exRequestNoFile.file = none ∧
    exPlaceA.title ≠ exRequestNoFile.bodyTitle ∧ exPlaceA.updatedAt = none ∧
    ((editPlace exEnv exRequestNoBody exWorld).1
        = Response.send 500 "Error al actualizar el lugar" ∧
      (editPlace exEnv exRequestNoBody exWorld).2.disk = [exPlaceA, exPlaceB]) ∧
    ((editPlace exEnvReadFails exRequestNoFile exWorld).1
        = Response.send 500 "Error al actualizar el lugar" ∧
      (editPlace exEnvReadFails exRequestNoFile exWorld).2.disk = [exPlaceA, exPlaceB]) ∧
    ((editPlace exEnvWriteFails exRequestNoFile exWorld).1
        = Response.send 500 "Error al actualizar el lugar" ∧
      (editPlace exEnvWriteFails exRequestNoFile exWorld).2.disk = [exPlaceA, exPlaceB]) := by
  decide

/-- C3 (amended). Edit without a new image, addressed to the first record `p`
carrying the given id (`w.disk = pre ++ p :: post`). Whatever the outcome, no
media-service call is made, the live remote objects are unchanged, and the
persisted collection afterwards is `pre ++ p2 :: post` where `p2` has the id,
imageUrl, imagePublicId and createdAt of `p`. When the request has a parsed
body and the store read and write succeed, `p2` carries the request title and
the current time as updatedAt and the response is the redirect. When the
request has no parsed body, or the store read or write fails, the response is
the generic failure response and the persisted record is `p` unchanged. -/
theorem edit_without_file_keeps_image_and_frame (env : Env) (req : Request)
    (w : World) (pre : List Place) (p : Place) (post : List Place)
    (hdisk : w.disk = pre ++ p :: post) (hid : p.id = req.paramsId)
    (hfirst : ∀ q ∈ pre, q.id ≠ req.paramsId) (hfile : req.file = none) :
    (∃ cs, (editPlace env req w).2.calls = w.calls ++ cs ∧ ∀ c ∈ cs, c.isRemote = false) ∧
    (editPlace env req w).2.remote = w.remote ∧
    ∃ p2, (editPlace env req w).2.disk = pre ++ p2 :: post ∧
      p2.id = p.id ∧ p2.imageUrl = p.imageUrl ∧ p2.imagePublicId = p.imagePublicId ∧
      p2.createdAt = p.createdAt ∧
      (∀ body, req.body = some body → env.read = none → env.write = none →
        p2.title = body.title ∧ p2.updatedAt = some env.now ∧
        (editPlace env req w).1 = Response.redirect "/") ∧
      ((req.body = none ∨ env.read ≠ none ∨ env.write ≠ none) →
        p2 = p ∧ (editPlace env req w).1 = Response.send 500 "Error al actualizar el lugar") := by
  cases hr : env.read with
  | some e =>
    rw [editPlace_read_fails env req w e hr]
    refine ⟨⟨[Call.dbRead], rfl, by simp [Call.isRemote]⟩, rfl, p, hdisk, rfl, rfl, rfl, rfl,
      ?_, ?_⟩
    · intro body _ h
      simp at h
    · intro _
      exact ⟨rfl, rfl⟩
  | none =>
    cases hb : req.body with
    | none =>
      rw [editPlace_no_body env req w hr hb]
      refine ⟨⟨[Call.dbRead], rfl, by simp [Call.isRemote]⟩, rfl, p, hdisk, rfl, rfl, rfl, rfl,
        ?_, ?_⟩
      · intro body h
        simp at h
      · intro _
        exact ⟨rfl, rfl⟩
    | some body =>
      rw [editPlace_found_no_file env req w body pre p post hdisk hid hfirst hr hb hfile]
      cases hw : env.write with
      | some e =>
        rw [editFinish_write_fails env _ _ pre p p post e hdisk hw]
        refine ⟨⟨[Call.dbRead, Call.dbWrite
            (pre ++ { p with title := body.title, updatedAt := some env.now } :: post)],
            by simp, by simp [Call.isRemote]⟩, rfl, p, hdisk, rfl, rfl, rfl, rfl, ?_, ?_⟩
        · intro _ _ _ h
          simp at h
        · intro _
          exact ⟨rfl, rfl⟩
      | none =>
        rw [editFinish_write_ok env _ _ pre p p post hdisk hw]
        refine ⟨⟨[Call.dbRead, Call.dbWrite
            (pre ++ { p with title := body.title, updatedAt := some env.now } :: post)],
            by simp, by simp [Call.isRemote]⟩, rfl,
            { p with title := body.title, updatedAt := some env.now },
            rfl, rfl, rfl, rfl, rfl, ?_, ?_⟩
        · intro body2 h2 _ _
          simp only [Option.some.injEq] at h2
          subst h2
          exact ⟨rfl, rfl, rfl⟩
        · intro h
          simp at h

theorem edit_without_file_keeps_image_and_frame_witness :
    (∃ cs, (editPlace exEnv exRequestNoFile exWorld).2.calls = exWorld.calls ++ cs ∧
      ∀ c ∈ cs, c.isRemote = false) ∧
    (editPlace exEnv exRequestNoFile exWorld).2.remote = exWorld.remote ∧
    ∃ p2, (editPlace exEnv exRequestNoFile exWorld).2.disk = [] ++ p2 :: [exPlaceB] ∧
      p2.id = exPlaceA.id ∧ p2.imageUrl = exPlaceA.imageUrl ∧
      p2.imagePublicId = exPlaceA.imagePublicId ∧ p2.createdAt = exPlaceA.createdAt ∧
      (∀ body, exRequestNoFile.body = some body → exEnv.read = none → exEnv.write = none →
        p2.title = body.title ∧ p2.updatedAt = some exEnv.now ∧
        (editPlace exEnv exRequestNoFile exWorld).1 = Response.redirect "/") ∧
      ((exRequestNoFile.body = none ∨ exEnv.read ≠ none ∨ exEnv.write ≠ none) →
        p2 = exPlaceA ∧
        (editPlace exEnv exRequestNoFile exWorld).1
          = Response.send 500 "Error al actualizar el lugar") :=
  edit_without_file_keeps_image_and_frame exEnv exRequestNoFile exWorld
    [] exPlaceA [exPlaceB] rfl rfl (by simp) rfl

/-! ## Edit-form fetch -/

theorem editForm_read_fails (env : Env) (req : Request) (w : World) (e : Err)
    (hr : env.read = some e) :
    editForm env req w =
      (Response.send 500 "Error al cargar el lugar",
        { w with calls := w.calls ++ [Call.dbRead] }) := by
  simp [editForm, dbRead, hr, editFormCatch]

theorem editForm_not_found (env : Env) (req : Request) (w : World)
    (hr : env.read = none) (hnone : ∀ q ∈ w.disk, q.id ≠ req.paramsId) :
    editForm env req w =
      (Response.send 404 "Lugar no encontrado",
        { w with mem := w.disk, calls := w.calls ++ [Call.dbRead] }) := by
  have hf := find_eq_none (fun q => q.id == req.paramsId) w.disk
    (id_beq_false_of_ne req.paramsId w.disk hnone)
  simp [editForm, dbRead, hr, hf]

/-! ## Not found -/

/-- C5 (as stated, refuted). For an id no stored record carries, (1) an edit
request without a parsed body (`req.body` is `undefined`) is answered 500, not
404: line 109 throws before the lookup; (2) when the store read rejects, the
edit-form fetch, the edit and the delete are answered 500, not 404. -/
theorem missing_id_can_answer_500 :
    (∀ q ∈ exWorld.disk, q.id ≠ exRequestMissingNoBody.paramsId) ∧
    (∀ q ∈ exWorld.disk, q.id ≠ exRequestMissing.paramsId) ∧
    (editPlace exEnv exRequestMissingNoBody exWorld).1
      = Response.send 500 "Error al actualizar el lugar" ∧
    (editForm exEnvReadFails exRequestMissing exWorld).1
      = Response.send 500 "Error al cargar el lugar" ∧
    (editPlace exEnvReadFails exRequestMissing exWorld).1
      = Response.send 500 "Error al actualizar el lugar" ∧
    (deletePlace exEnvReadFails exRequestMissing exWorld).1
      = Response.send 500 "Error al eliminar el lugar" := by
  decide

/-- C5 (amended). Not-found handling: when no record of the collection carries
the requested id, each id-addressed handler (edit-form fetch, edit, delete)
leaves the persisted collection and the remote objects unchanged and makes no
call other than the store read (no store write, no upload, no destroy),
whatever the request carries (a file included). When the store read succeeds,
the edit-form fetch and the delete answer 404, and the edit answers 404 when
the request has a parsed body and its generic 500 when it has none. When the
store read fails, each handler answers its generic 500. -/
theorem missing_id_has_no_effect (env : Env) (req : Request) (w : World)
    (hnone : ∀ q ∈ w.disk, q.id ≠ req.paramsId) :
    ReadOnlyOutcome w (editForm env req w) ∧
    ReadOnlyOutcome w (editPlace env req w) ∧
    ReadOnlyOutcome w (deletePlace env req w) ∧
    (env.read = none →
      (editForm env req w).1 = Response.send 404 "Lugar no encontrado" ∧
      (deletePlace env req w).1 = Response.send 404 "Lugar no encontrado" ∧
      (req.body ≠ none → (editPlace env req w).1 = Response.send 404 "Lugar no encontrado") ∧
      (req.body = none →
        (editPlace env req w).1 = Response.send 500 "Error al actualizar el lugar")) ∧
    (env.read ≠ none →
      (editForm env req w).1 = Response.send 500 "Error al cargar el lugar" ∧
      (editPlace env req w).1 = Response.send 500 "Error al actualizar el lugar" ∧
      (deletePlace env req w).1 = Response.send 500 "Error al eliminar el lugar") := by
  cases hr : env.read with
  | some e =>
    rw [editForm_read_fails env req w e hr, editPlace_read_fails env req w e hr,
      deletePlace_read_fails env req w e hr]
    simp [ReadOnlyOutcome]
  | none =>
    rw [editForm_not_found env req w hr hnone, deletePlace_not_found env req w hr hnone]
    cases hb : req.body with
    | none =>
      rw [editPlace_no_body env req w hr hb]
      simp [ReadOnlyOutcome]
    | some body =>
      rw [editPlace_not_found env req w body hr hb hnone]
      simp [ReadOnlyOutcome]

theorem missing_id_has_no_effect_witness :
    (∀ q ∈ exWorld.disk, q.id ≠ exRequestMissing.paramsId) ∧
    exRequestMissing.file = some exFile ∧
    ReadOnlyOutcome exWorld (editForm exEnv exRequestMissing exWorld) ∧
    ReadOnlyOutcome exWorld (editPlace exEnv exRequestMissing exWorld) ∧
    ReadOnlyOutcome exWorld (deletePlace exEnv exRequestMissing exWorld) ∧
    (exEnv.read = none →
      (editForm exEnv exRequestMissing exWorld).1 = Response.send 404 "Lugar no encontrado" ∧
      (deletePlace exEnv exRequestMissing exWorld).1
        = Response.send 404 "Lugar no encontrado" ∧
      (exRequestMissing.body ≠ none →
        (editPlace exEnv exRequestMissing exWorld).1
          = Response.send 404 "Lugar no encontrado") ∧
      (exRequestMissing.body = none →
        (editPlace exEnv exRequestMissing exWorld).1
          = Response.send 500 "Error al actualizar el lugar")) ∧
    (exEnv.read ≠ none →
      (editForm exEnv exRequestMissing exWorld).1
        = Response.send 500 "Error al cargar el lugar" ∧
      (editPlace exEnv exRequestMissing exWorld).1
        = Response.send 500 "Error al actualizar el lugar" ∧
      (deletePlace exEnv exRequestMissing exWorld).1
        = Response.send 500 "Error al eliminar el lugar") :=
  ⟨by decide, rfl, missing_id_has_no_effect exEnv exRequestMissing exWorld (by decide)⟩

/-! ## Delete when the remote deletion fails -/

/-- C6 (as stated, refuted). Delete of a stored record with a non-null
`imagePublicId` while the destroy call rejects: the handler answers 500, the
record is still in the persisted collection and no store write is made. -/
theorem delete_blocked_by_destroy_failure :
    exPlaceA ∈ exWorld.disk ∧ exPlaceA.id = exRequest.paramsId ∧
    exPlaceA.imagePublicId = some "places/abc" ∧
    exEnvDestroyFails.read = none ∧ exEnvDestroyFails.write = none ∧
    (deletePlace exEnvDestroyFails exRequest exWorld).1
      = Response.send 500 "Error al eliminar el lugar" ∧
    (deletePlace exEnvDestroyFails exRequest exWorld).2.disk = exWorld.disk ∧
    exPlaceA ∈ (deletePlace exEnvDestroyFails exRequest exWorld).2.disk ∧
    (deletePlace exEnvDestroyFails exRequest exWorld).2.calls
      = [Call.dbRead, Call.destroy "places/abc"] := by
  decide

/-- C6 (amended). Delete of the first record `p` carrying the given id, with a
truthy (non-null, non-empty) `imagePublicId`, the store read succeeding: if the
destroy call rejects, the handler answers 500, the persisted collection is
unchanged (the record is not removed) and no store write is made; if the
destroy call resolves (whatever its result value) and the store write succeeds,
the record is removed and the collection is persisted. -/
theorem delete_destroy_rejection_aborts (env : Env) (req : Request) (w : World)
    (pre : List Place) (p : Place) (post : List Place) (publicId : String)
    (hdisk : w.disk = pre ++ p :: post) (hid : p.id = req.paramsId)
    (hfirst : ∀ q ∈ pre, q.id ≠ req.paramsId)
    (hpid : p.imagePublicId = some publicId) (hne : publicId ≠ "")
    (hr : env.read = none) :
    (∀ e, env.destroy = some e →
      (deletePlace env req w).1 = Response.send 500 "Error al eliminar el lugar" ∧
      (deletePlace env req w).2.disk = w.disk ∧
      (deletePlace env req w).2.calls = w.calls ++ [Call.dbRead, Call.destroy publicId]) ∧
    (env.destroy = none → env.write = none →
      (deletePlace env req w).1 = Response.redirect "/" ∧
      (deletePlace env req w).2.disk = pre ++ post ∧
      (deletePlace env req w).2.calls
        = w.calls ++ [Call.dbRead, Call.destroy publicId, Call.dbWrite (pre ++ post)]) := by
  have ht : truthy (some publicId) = true := by simp [truthy, hne]
  constructor
  · intro e hd
    rw [deletePlace_found_destroy_fails env req w pre p post publicId e
      hdisk hid hfirst hr hpid ht hd]
    simp
  · intro hd hw
    rw [deletePlace_found_destroy_ok env req w pre p post publicId
      hdisk hid hfirst hr hpid ht hd,
      deleteFinish_write_ok env _ pre p post hdisk hw]
    simp

theorem delete_destroy_rejection_aborts_witness :
    (∀ e, exEnvDestroyFails.destroy = some e →
      (deletePlace exEnvDestroyFails exRequest exWorld).1
        = Response.send 500 "Error al eliminar el lugar" ∧
      (deletePlace exEnvDestroyFails exRequest exWorld).2.disk = exWorld.disk ∧
      (deletePlace exEnvDestroyFails exRequest exWorld).2.calls
        = exWorld.calls ++ [Call.dbRead, Call.destroy "places/abc"]) ∧
    (exEnvDestroyFails.destroy = none → exEnvDestroyFails.write = none →
      (deletePlace exEnvDestroyFails exRequest exWorld).1 = Response.redirect "/" ∧
      (deletePlace exEnvDestroyFails exRequest exWorld).2.disk = [] ++ [exPlaceB] ∧
      (deletePlace exEnvDestroyFails exRequest exWorld).2.calls
        = exWorld.calls ++ [Call.dbRead, Call.destroy "places/abc",
            Call.dbWrite ([] ++ [exPlaceB])]) :=
  delete_destroy_rejection_aborts exEnvDestroyFails exRequest exWorld [] exPlaceA [exPlaceB]
    "places/abc" rfl rfl (by simp) rfl (by decide) rfl

/-! ## Edit with a new image -/

/-- C8 (as stated, refuted). Edit with a new image of a stored record whose
`imagePublicId` is the empty string (non-null): every call succeeds, the image
fields are replaced, and no destroy call is made for the old public id; the
handler tests `place.imagePublicId` for truthiness, and the empty string is falsy. -/
theorem edit_makes_no_destroy_for_empty_public_id :
    exWorldEmptyPublicId.disk = [exPlaceEmptyPublicId] ∧
    exPlaceEmptyPublicId.id = exRequest.paramsId ∧
    exPlaceEmptyPublicId.imagePublicId ≠ none ∧
    exRequest.file ≠ none ∧
    (editPlace exEnv exRequest exWorldEmptyPublicId).1 = Response.redirect "/" ∧
    ((editPlace exEnv exRequest exWorldEmptyPublicId).2.disk.map (fun q => q.imagePublicId))
      = [some "places/new"] ∧
    ((editPlace exEnv exRequest exWorldEmptyPublicId).2.calls.filter Call.isDestroy) = [] ∧
    ((editPlace exEnv exRequest exWorldEmptyPublicId).2.calls.filter Call.isRemote).length = 1 := by
  decide

/-- C8 (amended). Edit with a new image, addressed to the first record `p`
carrying the given id, when the store read, the remote calls and the store write
succeed: the calls made are the store read, then a destroy of the old
`imagePublicId` exactly when it is truthy (non-null and non-empty), then a
single upload, then the store write; afterwards the record at that position has
the upload result's `secure_url` and `public_id` as imageUrl and imagePublicId,
the request title, the current time as updatedAt, and the id and createdAt of
`p`; every other record is unchanged. -/
theorem edit_with_file_replaces_image (env : Env) (req : Request) (w : World)
    (pre : List Place) (p : Place) (post : List Place) (file : File) (result : UploadResult)
    (hdisk : w.disk = pre ++ p :: post) (hid : p.id = req.paramsId)
    (hfirst : ∀ q ∈ pre, q.id ≠ req.paramsId) (hfile : req.file = some file)
    (hr : env.read = none) (hd : env.destroy = none) (hu : env.upload = .ok result)
    (hw : env.write = none) :
    (editPlace env req w).1 = Response.redirect "/" ∧
    (editPlace env req w).2.disk =
      pre ++ { id := p.id, title := req.bodyTitle, imageUrl := some result.secure_url,
               imagePublicId := some result.public_id, createdAt := p.createdAt,
               updatedAt := some env.now } :: post ∧
    (editPlace env req w).2.calls =
      w.calls ++ [Call.dbRead] ++ destroyCallsFor p ++
        [Call.upload (dataURI file) "places" "auto",
         Call.dbWrite
           (pre ++
             { id := p.id, title := req.bodyTitle, imageUrl := some result.secure_url,
               imagePublicId := some result.public_id, createdAt := p.createdAt,
               updatedAt := some env.now } :: post)] := by
  obtain ⟨body, hbody, htitle⟩ := body_of_file req file hfile
  rw [htitle]
  by_cases ht : truthy p.imagePublicId = true
  · cases hpid : p.imagePublicId with
    | none => simp [hpid, truthy] at ht
    | some publicId =>
      rw [hpid] at ht
      rw [editPlace_found_file_destroy_ok env req w body pre p post file publicId
        hdisk hid hfirst hr hbody hfile hpid ht hd,
        editUpload_ok env _ _ pre p post file result hdisk hu,
        editFinish_write_ok env _ _ pre _ _ post rfl hw]
      simp [destroyCallsFor, hpid, ht]
  · have hf : truthy p.imagePublicId = false := by simpa using ht
    rw [editPlace_found_file_falsy env req w body pre p post file hdisk hid hfirst hr hbody
        hfile hf,
      editUpload_ok env _ _ pre p post file result hdisk hu,
      editFinish_write_ok env _ _ pre _ _ post rfl hw]
    cases hpid : p.imagePublicId with
    | none => simp [destroyCallsFor, hpid]
    | some publicId =>
      rw [hpid] at hf
      simp [destroyCallsFor, hpid, hf]

theorem edit_with_file_replaces_image_witness :
    (editPlace exEnv exRequest exWorld).1 = Response.redirect "/" ∧
    (editPlace exEnv exRequest exWorld).2.disk =
      [] ++ { id := exPlaceA.id, title := exRequest.bodyTitle,
              imageUrl := some "https://res.cloudinary.com/demo/image/upload/v2/places/new.jpg",
              imagePublicId := some "places/new", createdAt := exPlaceA.createdAt,
              updatedAt := some exEnv.now } :: [exPlaceB] ∧
    (editPlace exEnv exRequest exWorld).2.calls =
      exWorld.calls ++ [Call.dbRead] ++ destroyCallsFor exPlaceA ++
        [Call.upload (dataURI exFile) "places" "auto",
         Call.dbWrite
           ([] ++
             { id := exPlaceA.id, title := exRequest.bodyTitle,
               imageUrl := some "https://res.cloudinary.com/demo/image/upload/v2/places/new.jpg",
               imagePublicId := some "places/new", createdAt := exPlaceA.createdAt,
               updatedAt := some exEnv.now } :: [exPlaceB])] :=
  edit_with_file_replaces_image exEnv exRequest exWorld [] exPlaceA [exPlaceB] exFile
    { secure_url := "https://res.cloudinary.com/demo/image/upload/v2/places/new.jpg"
      public_id := "places/new" } rfl rfl (by simp) rfl rfl rfl rfl rfl

/-! ## Error propagation -/

/-- C10 (failing input of the list route). When the store read rejects with
`e`, the handler of `GET /` sends no response of its own: the rejection leaves
the handler carrying `e`, so the outcome is neither a status-500 response with
a fixed body nor independent of the error content. The route has no
`try`/`catch`, unlike the four other routes. -/
theorem list_read_failure_is_not_caught (env : Env) (w : World) (e : Err) :
    (listPlaces { env with read := some e } w).1 = Response.uncaught e ∧
    (∀ status body, (listPlaces { env with read := some e } w).1 ≠ Response.send status body) ∧
    (∀ e2, e2 ≠ e →
      (listPlaces { env with read := some e2 } w).1 ≠ (listPlaces { env with read := some e } w).1) := by
  refine ⟨by simp [listPlaces, dbRead], by simp [listPlaces, dbRead], ?_⟩
  intro e2 h
  simpa [listPlaces, dbRead] using h

/-- The four routes with a `try`/`catch` answer every failure with their fixed
status-500 response: the response is always the redirect, a render of a stored
record, the 404 response, or the fixed 500 response of the route, none of which
carries the error. -/
theorem wrapped_routes_answer_generic_500 (env : Env) (req : Request) (w : World) :
    ((createPlace env req w).1 = Response.redirect "/" ∨
      (createPlace env req w).1 = Response.send 500 "Error al subir la imagen") ∧
    ((∃ p ∈ w.disk, (editForm env req w).1 = Response.render "edit" (Context.place p)) ∨
      (editForm env req w).1 = Response.send 404 "Lugar no encontrado" ∨
      (editForm env req w).1 = Response.send 500 "Error al cargar el lugar") ∧
    ((editPlace env req w).1 = Response.redirect "/" ∨
      (editPlace env req w).1 = Response.send 404 "Lugar no encontrado" ∨
      (editPlace env req w).1 = Response.send 500 "Error al actualizar el lugar") ∧
    ((deletePlace env req w).1 = Response.redirect "/" ∨
      (deletePlace env req w).1 = Response.send 404 "Lugar no encontrado" ∨
      (deletePlace env req w).1 = Response.send 500 "Error al eliminar el lugar") := by
  refine ⟨?_, ?_, ?_, ?_⟩
  · simp only [createPlace, dbRead, uploaderUpload, dbWrite, createCatch]
    repeat' split
    all_goals simp_all
  · cases hr : env.read with
    | some e => simp [editForm, dbRead, hr, editFormCatch]
    | none =>
      cases hf : find (fun p => p.id == req.paramsId) w.disk with
      | none => simp [editForm, dbRead, hr, hf]
      | some p =>
        left
        exact ⟨p, find_some_mem _ _ _ hf, by simp [editForm, dbRead, hr, hf]⟩
  · simp only [editPlace, editUpload, editFinish, dbRead, uploaderUpload, uploaderDestroy,
      dbWrite, editCatch]
    repeat' split
    all_goals simp_all
  · simp only [deletePlace, deleteFinish, dbRead, uploaderDestroy, dbWrite, deleteCatch]
    repeat' split
    all_goals simp_all

/-! ## Image-reference invariant -/

/-- C9 (as stated, refuted). Starting from a state in which every image
reference is live: (1) an edit with a new image whose destroy of the old image
resolves and whose upload then rejects answers 500, leaves the persisted
collection unchanged, and the edited record now refers to a remote object that
is no longer live; (2) a successful delete of one of two records referring to
the same remote object leaves the other record with a dangling reference. -/
theorem image_reference_can_dangle :
    (imageRefsLive exWorld.remote exWorld.disk = true ∧
      (editPlace exEnvUploadFails exRequest exWorld).1
        = Response.send 500 "Error al actualizar el lugar" ∧
      (editPlace exEnvUploadFails exRequest exWorld).2.disk = exWorld.disk ∧
      imageRefsLive (editPlace exEnvUploadFails exRequest exWorld).2.remote
        (editPlace exEnvUploadFails exRequest exWorld).2.disk = false) ∧
    (imageRefsLive exWorldSharedImage.remote exWorldSharedImage.disk = true ∧
      (deletePlace exEnv exRequest exWorldSharedImage).1 = Response.redirect "/" ∧
      imageRefsLive (deletePlace exEnv exRequest exWorldSharedImage).2.remote
        (deletePlace exEnv exRequest exWorldSharedImage).2.disk = false) := by
  decide

theorem imageRefLive_iff (remote : List (String × String)) (p : Place) :
    imageRefLive remote p = true ↔
      ∀ publicId, p.imagePublicId = some publicId →
        ∃ url, p.imageUrl = some url ∧ (publicId, url) ∈ remote := by
  unfold imageRefLive
  cases hp : p.imagePublicId with
  | none => simp
  | some publicId =>
    cases hu : p.imageUrl with
    | none => simp
    | some url => simp

theorem imageRefLive_mono (r1 r2 : List (String × String)) (p : Place)
    (hsub : ∀ x ∈ r1, x ∈ r2) (h : imageRefLive r1 p = true) : imageRefLive r2 p = true := by
  rw [imageRefLive_iff] at h ⊢
  intro publicId hp
  obtain ⟨url, hu, hm⟩ := h publicId hp
  exact ⟨url, hu, hsub _ hm⟩

theorem imageRefsLive_iff (remote : List (String × String)) (ps : List Place) :
    imageRefsLive remote ps = true ↔ ∀ q ∈ ps, imageRefLive remote q = true := by
  simp [imageRefsLive, List.all_eq_true]

theorem imageRefsLive_mono (r1 r2 : List (String × String)) (ps : List Place)
    (hsub : ∀ x ∈ r1, x ∈ r2) (h : imageRefsLive r1 ps = true) :
    imageRefsLive r2 ps = true := by
  rw [imageRefsLive_iff] at h ⊢
  exact fun q hq => imageRefLive_mono r1 r2 q hsub (h q hq)

theorem imageRefLive_after_destroy (remote : List (String × String)) (q : Place)
    (publicId : String) (hne : q.imagePublicId ≠ some publicId)
    (h : imageRefLive remote q = true) :
    imageRefLive (remote.filter (fun o => o.1 != publicId)) q = true := by
  rw [imageRefLive_iff] at h ⊢
  intro pid hp
  obtain ⟨url, hu, hm⟩ := h pid hp
  refine ⟨url, hu, ?_⟩
  rw [List.mem_filter]
  refine ⟨hm, ?_⟩
  have : pid ≠ publicId := by
    intro hc
    exact hne (by rw [hp, hc])
  simpa using this

theorem others_have_other_public_id (pre : List Place) (p : Place) (post : List Place)
    (publicId : String) (hpid : p.imagePublicId = some publicId)
    (hnd : (publicIds (pre ++ p :: post)).Nodup) :
    ∀ q ∈ pre ++ post, q.imagePublicId ≠ some publicId := by
  have hsplit : publicIds (pre ++ p :: post) = publicIds pre ++ publicId :: publicIds post := by
    simp [publicIds, List.filterMap_append, List.filterMap_cons, hpid]
  rw [hsplit] at hnd
  have hnd2 := List.nodup_middle.mp hnd
  rw [List.nodup_cons] at hnd2
  intro q hq hc
  apply hnd2.1
  rcases List.mem_append.mp hq with hq | hq
  · exact List.mem_append_left _ (List.mem_filterMap.mpr ⟨q, hq, hc⟩)
  · exact List.mem_append_right _ (List.mem_filterMap.mpr ⟨q, hq, hc⟩)

theorem imageRefsLive_split (remote : List (String × String)) (pre : List Place) (p : Place)
    (post : List Place) :
    imageRefsLive remote (pre ++ p :: post) = true ↔
      imageRefsLive remote (pre ++ post) = true ∧ imageRefLive remote p = true := by
  simp only [imageRefsLive_iff, List.mem_append, List.mem_cons]
  constructor
  · intro h
    exact ⟨fun q hq => h q (by tauto), h p (by tauto)⟩
  · rintro ⟨h1, h2⟩ q hq
    rcases hq with hq | rfl | hq
    · exact h1 q (Or.inl hq)
    · exact h2
    · exact h1 q (Or.inr hq)

theorem imageRefLive_retitle (remote : List (String × String)) (p : Place)
    (title updatedAt : Option String) :
    imageRefLive remote { p with title := title, updatedAt := updatedAt }
      = imageRefLive remote p := by
  simp [imageRefLive]

theorem create_keeps_image_refs_live (env : Env) (req : Request) (w : World)
    (hinv : imageRefsLive w.remote w.disk = true) :
    imageRefsLive (createPlace env req w).2.remote (createPlace env req w).2.disk = true := by
  cases hr : env.read with
  | some e => simpa [createPlace, dbRead, hr] using hinv
  | none =>
    cases hf : req.file with
    | none =>
      cases hb : req.body with
      | none => simpa [createPlace, dbRead, hr, hb] using hinv
      | some body => simpa [createPlace, dbRead, hr, hb, hf] using hinv
    | some file =>
      obtain ⟨body, hb, _⟩ := body_of_file req file hf
      cases hu : env.upload with
      | error e => simpa [createPlace, dbRead, uploaderUpload, hr, hb, hf, hu] using hinv
      | ok result =>
        have hmono : imageRefsLive (w.remote ++ [(result.public_id, result.secure_url)]) w.disk
            = true :=
          imageRefsLive_mono _ _ _ (fun x hx => List.mem_append_left _ hx) hinv
        cases hw : env.write with
        | some e =>
          simpa [createPlace, dbRead, uploaderUpload, dbWrite, hr, hb, hf, hu, hw] using hmono
        | none =>
          have hd : (createPlace env req w).2.disk = w.disk ++
              [{ id := env.randomUUID, title := body.title,
                 imageUrl := some result.secure_url, imagePublicId := some result.public_id,
                 createdAt := some env.now, updatedAt := none }] := by
            simp [createPlace, dbRead, uploaderUpload, dbWrite, hr, hb, hf, hu, hw]
          have hrem : (createPlace env req w).2.remote
              = w.remote ++ [(result.public_id, result.secure_url)] := by
            simp [createPlace, dbRead, uploaderUpload, dbWrite, hr, hb, hf, hu, hw]
          rw [hd, hrem, imageRefsLive_iff]
          intro q hq
          rcases List.mem_append.mp hq with hq | hq
          · exact (imageRefsLive_iff _ _).mp hmono q hq
          · simp only [List.mem_singleton] at hq
            subst hq
            simp [imageRefLive]

theorem editFinish_keeps_image_refs_live (env : Env) (title : Option String) (w : World)
    (pre : List Place) (x p : Place) (post : List Place)
    (hmem : w.mem = pre ++ x :: post)
    (hdisk : imageRefsLive w.remote w.disk = true)
    (hnew : imageRefsLive w.remote (pre ++ p :: post) = true) :
    imageRefsLive (editFinish env title pre.length p w).2.remote
      (editFinish env title pre.length p w).2.disk = true := by
  cases hw : env.write with
  | some e =>
    rw [editFinish_write_fails env title w pre x p post e hmem hw]
    exact hdisk
  | none =>
    rw [editFinish_write_ok env title w pre x p post hmem hw]
    rw [imageRefsLive_split] at hnew ⊢
    exact ⟨hnew.1, by rw [imageRefLive_retitle]; exact hnew.2⟩

theorem edit_keeps_image_refs_live (env : Env) (req : Request) (w : World)
    (hinv : imageRefsLive w.remote w.disk = true) (hdist : (publicIds w.disk).Nodup)
    (hexcl : destroyedThenFailed env w (editPlace env req w) = false) :
    imageRefsLive (editPlace env req w).2.remote (editPlace env req w).2.disk = true := by
  cases hr : env.read with
  | some e => rw [editPlace_read_fails env req w e hr]; exact hinv
  | none =>
    cases hb : req.body with
    | none => rw [editPlace_no_body env req w hr hb]; exact hinv
    | some body =>
      rcases found_or_absent req w.disk with hnone | ⟨pre, p, post, hdisk, hid, hfirst⟩
      · rw [editPlace_not_found env req w body hr hb hnone]; exact hinv
      · cases hfile : req.file with
        | none =>
          rw [editPlace_found_no_file env req w body pre p post hdisk hid hfirst hr hb hfile]
          exact editFinish_keeps_image_refs_live env _ _ pre p p post hdisk hinv
            (by rw [← hdisk]; exact hinv)
        | some file =>
          by_cases ht : truthy p.imagePublicId = true
          · cases hpid : p.imagePublicId with
            | none => simp [hpid, truthy] at ht
            | some publicId =>
              rw [hpid] at ht
              cases hd : env.destroy with
              | some e =>
                rw [editPlace_found_file_destroy_fails env req w body pre p post file publicId e
                  hdisk hid hfirst hr hb hfile hpid ht hd]
                exact hinv
              | none =>
                have hpath := editPlace_found_file_destroy_ok env req w body pre p post file
                  publicId hdisk hid hfirst hr hb hfile hpid ht hd
                cases hu : env.upload with
                | error e =>
                  exfalso
                  rw [hpath, editUpload_fails env _ _ p file _ e hu] at hexcl
                  simp [destroyedThenFailed, hd, Call.isDestroy] at hexcl
                | ok result =>
                  cases hw : env.write with
                  | some e =>
                    exfalso
                    rw [hpath, editUpload_ok env _ _ pre p post file result hdisk hu,
                      editFinish_write_fails env _ _ pre _ _ post e rfl hw] at hexcl
                    simp [destroyedThenFailed, hd, Call.isDestroy] at hexcl
                  | none =>
                    rw [hpath, editUpload_ok env _ _ pre p post file result hdisk hu,
                      editFinish_write_ok env _ _ pre _ _ post rfl hw]
                    have hothers := others_have_other_public_id pre p post publicId hpid
                      (by rw [← hdisk]; exact hdist)
                    rw [hdisk, imageRefsLive_split] at hinv
                    show imageRefsLive
                      (w.remote.filter (fun o => o.1 != publicId)
                        ++ [(result.public_id, result.secure_url)]) _ = true
                    rw [imageRefsLive_split]
                    constructor
                    · rw [imageRefsLive_iff]
                      intro q hq
                      apply imageRefLive_mono _ _ q (fun x hx => List.mem_append_left _ hx)
                      exact imageRefLive_after_destroy _ q publicId (hothers q hq)
                        ((imageRefsLive_iff _ _).mp hinv.1 q hq)
                    · simp [imageRefLive]
          · have hf : truthy p.imagePublicId = false := by simpa using ht
            rw [editPlace_found_file_falsy env req w body pre p post file hdisk hid hfirst hr hb
              hfile hf]
            cases hu : env.upload with
            | error e =>
              rw [editUpload_fails env _ _ p file _ e hu]
              exact hinv
            | ok result =>
              rw [editUpload_ok env _ _ pre p post file result hdisk hu]
              have hmono : imageRefsLive (w.remote ++ [(result.public_id, result.secure_url)])
                  w.disk = true :=
                imageRefsLive_mono _ _ _ (fun x hx => List.mem_append_left _ hx) hinv
              apply editFinish_keeps_image_refs_live env _ _ pre _ _ post rfl hmono
              show imageRefsLive (w.remote ++ [(result.public_id, result.secure_url)]) _ = true
              rw [hdisk, imageRefsLive_split] at hmono
              rw [imageRefsLive_split]
              exact ⟨hmono.1, by simp [imageRefLive]⟩

theorem delete_keeps_image_refs_live (env : Env) (req : Request) (w : World)
    (hinv : imageRefsLive w.remote w.disk = true) (hdist : (publicIds w.disk).Nodup)
    (hexcl : destroyedThenFailed env w (deletePlace env req w) = false) :
    imageRefsLive (deletePlace env req w).2.remote (deletePlace env req w).2.disk = true := by
  cases hr : env.read with
  | some e => rw [deletePlace_read_fails env req w e hr]; exact hinv
  | none =>
    rcases found_or_absent req w.disk with hnone | ⟨pre, p, post, hdisk, hid, hfirst⟩
    · rw [deletePlace_not_found env req w hr hnone]; exact hinv
    · by_cases ht : truthy p.imagePublicId = true
      · cases hpid : p.imagePublicId with
        | none => simp [hpid, truthy] at ht
        | some publicId =>
          rw [hpid] at ht
          cases hd : env.destroy with
          | some e =>
            rw [deletePlace_found_destroy_fails env req w pre p post publicId e
              hdisk hid hfirst hr hpid ht hd]
            exact hinv
          | none =>
            have hpath := deletePlace_found_destroy_ok env req w pre p post publicId
              hdisk hid hfirst hr hpid ht hd
            cases hw : env.write with
            | some e =>
              exfalso
              rw [hpath, deleteFinish_write_fails env _ pre p post e hdisk hw] at hexcl
              simp [destroyedThenFailed, hd, Call.isDestroy] at hexcl
            | none =>
              rw [hpath, deleteFinish_write_ok env _ pre p post hdisk hw]
              have hothers := others_have_other_public_id pre p post publicId hpid
                (by rw [← hdisk]; exact hdist)
              rw [hdisk, imageRefsLive_split] at hinv
              show imageRefsLive (w.remote.filter (fun o => o.1 != publicId)) (pre ++ post)
                = true
              rw [imageRefsLive_iff]
              intro q hq
              exact imageRefLive_after_destroy _ q publicId (hothers q hq)
                ((imageRefsLive_iff _ _).mp hinv.1 q hq)
      · have hf : truthy p.imagePublicId = false := by simpa using ht
        rw [deletePlace_found_falsy env req w pre p post hdisk hid hfirst hr hf]
        rw [hdisk, imageRefsLive_split] at hinv
        cases hw : env.write with
        | some e =>
          rw [deleteFinish_write_fails env _ pre p post e hdisk hw]
          show imageRefsLive w.remote w.disk = true
          rw [hdisk, imageRefsLive_split]
          exact hinv
        | none =>
          rw [deleteFinish_write_ok env _ pre p post hdisk hw]
          exact hinv.1

/-- C9 (amended). Image-reference invariant, with the media service modelled as
the list of live objects `(public_id, secure_url)`: if every record with a
non-null `imagePublicId` refers to a live object with the record's `imageUrl`,
and no two records carry the same non-null `imagePublicId`, then every record
of the persisted collection still has a live image reference after any create
request, whatever its outcome, and after any edit or delete request except one
that answers with a failure after a destroy call it made has resolved. -/
theorem image_refs_stay_live (env : Env) (req : Request) (w : World)
    (hinv : imageRefsLive w.remote w.disk = true) (hdist : (publicIds w.disk).Nodup) :
    imageRefsLive (createPlace env req w).2.remote (createPlace env req w).2.disk = true ∧
    (destroyedThenFailed env w (editPlace env req w) = false →
      imageRefsLive (editPlace env req w).2.remote (editPlace env req w).2.disk = true) ∧
    (destroyedThenFailed env w (deletePlace env req w) = false →
      imageRefsLive (deletePlace env req w).2.remote (deletePlace env req w).2.disk = true) :=
  ⟨create_keeps_image_refs_live env req w hinv,
    edit_keeps_image_refs_live env req w hinv hdist,
    delete_keeps_image_refs_live env req w hinv hdist⟩

theorem image_refs_stay_live_witness :
    imageRefsLive exWorld.remote exWorld.disk = true ∧
    (publicIds exWorld.disk).Nodup ∧
    destroyedThenFailed exEnv exWorld (editPlace exEnv exRequest exWorld) = false ∧
    destroyedThenFailed exEnv exWorld (deletePlace exEnv exRequest exWorld) = false ∧
    imageRefsLive (createPlace exEnv exRequest exWorld).2.remote
      (createPlace exEnv exRequest exWorld).2.disk = true ∧
    imageRefsLive (editPlace exEnv exRequest exWorld).2.remote
      (editPlace exEnv exRequest exWorld).2.disk = true ∧
    imageRefsLive (deletePlace exEnv exRequest exWorld).2.remote
      (deletePlace exEnv exRequest exWorld).2.disk = true :=
  have h := image_refs_stay_live exEnv exRequest exWorld (by decide) (by decide)
  ⟨by decide, by decide, by decide, by decide, h.1, h.2.1 (by decide), h.2.2 (by decide)⟩

end Places
